import Mathlib

/-!
Verification development for the openwork autopilot repository.

Shallow embedding of:
  * the bid-ledger HTTP endpoints (`src/unnamed/part_004`: GET / POST / PATCH of
    `/api/bids`),
  * the autopilot cycle endpoint (`src/app/api/autopilot/route.ts`, both the v2
    and the v5 generation of the file),
  * the skill matcher (`findBestAgent` of v5, `calculateMatch`/`findBestAgent`
    of v2),
  * the treasury guard (`TreasuryManager.processSpend` in
    `src/lib/openwork/client.ts`),
  * the cycle scheduler (`src/app/api/autopilot/engine.ts`), including an
    interleaving model of its `runCycle` at the `await` boundaries of the
    JavaScript event loop.

Modelling conventions: JavaScript strings are Lean `String`s; `string.includes`
is substring containment on the character list; `toLowerCase` is ASCII
lowercasing (all skill keywords in the source are ASCII); JS numbers are `Int`
(rewards, counts) or `ℚ` (treasury amounts), with the IEEE special values that
the guard code can actually produce (`Infinity`, `NaN` from division by zero)
modelled explicitly; generated ids and timestamps are opaque parameters;
fallible HTTP calls are `Option`/`Except` parameters of the function that
awaits them.
-/

/-- ASCII lowercasing of one character, as `String.prototype.toLowerCase`
acts on the ASCII range (every keyword the source compares against is ASCII). -/
def lowerChar (c : Char) : Char :=
  if 'A' ≤ c ∧ c ≤ 'Z' then Char.ofNat (c.toNat + 32) else c

/-- ASCII `toLowerCase` on strings. -/
def lowerString (s : String) : String := ⟨s.data.map lowerChar⟩

/-- JavaScript `haystack.includes(needle)`: substring containment. -/
def strContains (hay needle : String) : Bool := decide (needle.data <:+: hay.data)

/-- Task model (`interface Job` of `route.ts`).  The optional `matchScore`
field exists only on the v2 interface and is ignored by the v5 code. -/
structure Job where
  id : String
  title : String
  description : String
  reward : Int
  tags : List String
  status : String
  matchScore : Option Int := none
deriving DecidableEq, Repr

/-- Ledger entry (`interface BidRecord` of `src/unnamed/part_004`). -/
structure BidRecord where
  id : String
  jobId : String
  jobTitle : String
  agent : String
  bidAmount : Int
  status : String
  message : String
  timestamp : String
deriving DecidableEq, Repr

/-- Aggregate counts computed by the `/api/bids` GET handler. -/
structure BidStats where
  total : Nat
  pending : Nat
  won : Nat
  lost : Nat
  failed : Nat
deriving DecidableEq, Repr

/-- Stats block of the GET handler of `src/unnamed/part_004`. -/
def bidsStats (bids : List BidRecord) : BidStats :=
  { total := bids.length
    pending := (bids.filter (fun b => b.status == "pending")).length
    won := (bids.filter (fun b => b.status == "won")).length
    lost := (bids.filter (fun b => b.status == "lost")).length
    failed := (bids.filter (fun b => b.status == "failed")).length }

/-- GET `/api/bids` (`src/unnamed/part_004` lines 41-56): returns the first 50
records of the stored file (`bids.slice(0, 50)`, the store is newest-first)
together with stats over the whole store. -/
def bidsGET (bids : List BidRecord) : List BidRecord × BidStats :=
  (bids.take 50, bidsStats bids)

/-- POST `/api/bids` (`src/unnamed/part_004` lines 59-79): prepends the new
record (`bids.unshift`) with a generated id and timestamp, then truncates the
store to 100 records (`if (bids.length > 100) bids.length = 100`). -/
def bidsPOST (bids : List BidRecord) (b : BidRecord) (freshId now : String) :
    List BidRecord :=
  (({ b with id := freshId, timestamp := now } : BidRecord) :: bids).take 100

/-- PATCH `/api/bids` (`src/unnamed/part_004` lines 82-96): finds the first
record with the given id (`bids.find`), mutates its status and — only when the
`message` argument is truthy, so neither absent nor the empty string — its
message, and saves.  Returns the updated record, or `none` (the 404 branch)
when no record matches. -/
def bidsPATCH (bids : List BidRecord) (bidId status : String)
    (message : Option String) : Option BidRecord × List BidRecord :=
  match bids with
  | [] => (none, [])
  | b :: rest =>
    if b.id = bidId then
      let b' : BidRecord :=
        { b with
          status := status
          message :=
            match message with
            | some m => if m = "" then b.message else m
            | none => b.message }
      (some b', b' :: rest)
    else
      let r := bidsPATCH rest bidId status message
      (r.1, b :: r.2)

/-! ## Agent profiles and the v5 matcher (`route.ts` v5, lines 703-842) -/

/-- Skill keyword lists of the four v5 agent profiles (`const AGENTS` in
`route.ts` v5), in declaration order. -/
def AGENTS : List (String × List String) :=
  [("BACKEND", ["api", "automation", "backend", "nodejs", "python", "bot",
      "script", "scraping", "data", "server", "database", "webhook"]),
   ("CONTRACT", ["solidity", "smart-contracts", "blockchain", "web3", "defi",
      "token", "swap", "nft", "wallet", "base", "ethereum", "crypto", "trading"]),
   ("FRONTEND", ["frontend", "react", "nextjs", "ui", "dashboard", "design",
      "website", "app", "chart", "visual", "typescript", "tailwind"]),
   ("PM", ["research", "analysis", "list", "find", "compare", "report",
      "strategy", "writing", "content", "marketing", "discover", "evaluate",
      "welcome", "introduce", "social", "post", "streak", "community",
      "engagement", "moltgram", "claws", "guide", "onboarding"])]

/-- Combined case-folded job text of the v5 matcher:
`` `${job.title} ${job.description} ${(job.tags || []).join(' ')}`.toLowerCase() ``. -/
def jobTextV5 (job : Job) : String :=
  lowerString (job.title ++ " " ++ job.description ++ " " ++
    String.intercalate " " job.tags)

/-- Inner scoring loop of v5 `findBestAgent`: 12 points for every skill
keyword of the profile contained in the combined text. -/
def agentScore (combined : String) (skills : List String) : Int :=
  skills.foldl (fun score skill =>
    if strContains combined skill then score + 12 else score) 0

/-- The best-agent fold shared by both matcher generations: starting from
`("PM", 0)`, replace the running best exactly when the new score is strictly
greater (`if (score > best.score)`). -/
def bestFold {α : Type} (score : α → Int) (nameOf : α → String)
    (init : String × Int) (l : List α) : String × Int :=
  l.foldl (fun best p => if best.2 < score p then (nameOf p, score p) else best) init

/-- v5 `findBestAgent` (`route.ts` v5 lines 827-842). -/
def findBestAgent (job : Job) : String × Int :=
  let combined := jobTextV5 job
  AGENTS.foldl (fun best p =>
    if best.2 < agentScore combined p.2 then (p.1, agentScore combined p.2)
    else best) ("PM", 0)

/-! ## The v2 matcher (`route.ts` v2, lines 107-293) -/

/-- Skill lists of the v2 `AGENT_CONFIG`, in declaration order. -/
def AGENT_CONFIG : List (String × List String) :=
  [("BACKEND", ["api", "automation", "backend", "nodejs", "python", "coding",
      "data", "scraping", "bot", "script"]),
   ("CONTRACT", ["trading", "smart-contracts", "solidity", "blockchain",
      "defi", "base", "web3", "crypto", "token", "swap"]),
   ("FRONTEND", ["coding", "frontend", "react", "nextjs", "ui", "dashboard",
      "design", "typescript", "chart", "visual"]),
   ("PM", ["research", "analysis", "strategy", "writing", "planning",
      "marketing", "content", "report", "list", "compare"])]

/-- Lower-cased tag list used throughout the v2 matcher. -/
def jobTagsLower (job : Job) : List String := job.tags.map lowerString

/-- Combined text of the v2 matcher / category detector:
lower-cased title, description and space-joined tags. -/
def jobTextV2 (job : Job) : String :=
  lowerString job.title ++ " " ++ lowerString job.description ++ " " ++
    String.intercalate " " (jobTagsLower job)

/-- v2 `calculateMatch` (`route.ts` v2 lines 107-169): per-skill tag / title /
description points, an API-suggested `matchScore` bonus (truthiness: absent or
zero contributes nothing) and four category bonus blocks, capped at 100. -/
def calculateMatch (job : Job) (agentSkills : List String) : Int :=
  let jobTags := jobTagsLower job
  let description := lowerString job.description
  let title := lowerString job.title
  let all := jobTextV2 job
  let skillPoints := agentSkills.foldl (fun score skill =>
    let score :=
      if jobTags.any (fun tag => tag = skill) then score + 30
      else if jobTags.any (fun tag => strContains tag skill || strContains skill tag)
        then score + 20
      else score
    let score := if strContains title skill then score + 15 else score
    if strContains description skill then score + 10 else score) 0
  let score := skillPoints +
    (match job.matchScore with
     | some m => if m = 0 then 0 else m * 5
     | none => 0)
  let score := score +
    (if ["bot", "script", "automation", "api", "scrape"].any (strContains all) &&
        (agentSkills.contains "api" || agentSkills.contains "automation")
     then 25 else 0)
  let score := score +
    (if ["token", "contract", "solidity", "base", "defi", "swap"].any (strContains all) &&
        (agentSkills.contains "smart-contracts" || agentSkills.contains "blockchain")
     then 25 else 0)
  let score := score +
    (if ["dashboard", "ui", "frontend", "react", "design", "chart"].any (strContains all) &&
        (agentSkills.contains "frontend" || agentSkills.contains "react")
     then 25 else 0)
  let score := score +
    (if ["research", "analysis", "report", "list", "compare", "strategy"].any (strContains all) &&
        (agentSkills.contains "research" || agentSkills.contains "analysis")
     then 25 else 0)
  min 100 score

/-- v2 `detectJobCategory` (`route.ts` v2 lines 213-293), reduced to the
`(category, subcategory)` pair the matcher consumes. -/
def detectJobCategory (job : Job) : String × String :=
  let all := jobTextV2 job
  let has := strContains all
  if has "research" || has "investigate" || has "study" then
    if has "ai agent" || has "agent" then ("research", "ai-agents")
    else if has "market" || has "competitor" then ("research", "market")
    else if has "crypto" || has "token" || has "defi" then ("research", "crypto")
    else ("research", "general")
  else if has "analy" || has "compare" || has "review" || has "evaluate" then
    ("analysis", "comparison")
  else if has "list" || has "scrape" || has "collect" || has "find" then
    if has "twitter" || has "account" || has "social" then ("data", "social")
    else if has "discord" || has "server" || has "community" then ("data", "community")
    else ("data", "general")
  else if has "build" || has "create" || has "develop" || has "code" ||
      has "script" || has "bot" then
    if has "smart contract" || has "solidity" || has "token" then
      ("development", "web3")
    else if has "frontend" || has "ui" || has "dashboard" then
      ("development", "frontend")
    else if has "api" || has "backend" || has "bot" then
      ("development", "backend")
    else ("development", "general")
  else if has "trading" || has "strategy" || has "signal" || has "swap" then
    ("trading", "strategy")
  else if has "write" || has "article" || has "content" || has "copy" then
    ("content", "writing")
  else if has "token" || has "launch" || has "integrate" || has "bridge" then
    ("integration", "token")
  else ("general", "misc")

/-- v2 `categoryPriority` mapping of `findBestAgent`. -/
def categoryPriority : List (String × String) :=
  [("development-backend", "BACKEND"), ("development-web3", "CONTRACT"),
   ("development-frontend", "FRONTEND"), ("trading-strategy", "CONTRACT"),
   ("integration-token", "CONTRACT"), ("research-ai-agents", "PM"),
   ("research-market", "PM"), ("research-crypto", "PM"),
   ("research-general", "PM"), ("analysis-comparison", "PM"),
   ("data-social", "BACKEND"), ("data-community", "PM"),
   ("data-general", "BACKEND"), ("content-writing", "PM")]

/-- v2 `findBestAgent` (`route.ts` v2 lines 172-211): `calculateMatch` plus a
20-point boost for the category-priority agent, same strictly-greater fold. -/
def findBestAgentV2 (job : Job) : String × Int :=
  let cat := detectJobCategory job
  let priorityAgent : Option String :=
    (categoryPriority.find? (fun p => p.1 = cat.1 ++ "-" ++ cat.2)).map Prod.snd
  AGENT_CONFIG.foldl (fun best p =>
    let score := calculateMatch job p.2
    let score := if priorityAgent = some p.1 then score + 20 else score
    if best.2 < score then (p.1, score) else best) ("PM", 0)

/-! ## Candidate selection and the submission loop (`route.ts` POST handlers) -/

/-- Job ids the v2 POST skips: `bids.filter(status pending or won).map(jobId)`
(`route.ts` v2 lines 557-575). -/
def pendingWonIds (bids : List BidRecord) : List String :=
  (bids.filter (fun b => b.status == "pending" || b.status == "won")).map
    BidRecord.jobId

/-- Job ids the v5 POST skips: every previously recorded attempt
(`route.ts` v5 lines 1315-1330). -/
def attemptedIds (bids : List BidRecord) : List String :=
  bids.map BidRecord.jobId

/-- Status/reward filter shared by both POST generations:
`jobs.filter(j => j.status === 'open' && j.reward > 0)`. -/
def openEligible (jobs : List Job) : List Job :=
  jobs.filter (fun j => j.status == "open" && decide (0 < j.reward))

/-- Descending-reward ordering used by `sort((a, b) => (b.reward || 0) - (a.reward || 0))`:
`a` may stay before `b` iff `b.reward ≤ a.reward`. -/
def rewardGE (a b : Job) : Prop := b.reward ≤ a.reward

instance : DecidableRel rewardGE :=
  fun a b => inferInstanceAs (Decidable (b.reward ≤ a.reward))

instance : IsTotal Job rewardGE := ⟨fun a b => le_total b.reward a.reward⟩

instance : IsTrans Job rewardGE := ⟨fun _ _ _ h1 h2 => le_trans h2 h1⟩

/-- Candidate selection of the v2 POST: open eligible jobs not in the
pending/won set, sorted by descending reward.  JavaScript `Array.prototype.sort`
is stable (ES2019), and a stable sort's output is unique, so the embedding uses
`List.insertionSort` with the non-strict descending relation, which is stable. -/
def selectCandidatesV2 (jobs : List Job) (bids : List BidRecord) : List Job :=
  ((openEligible jobs).filter
      (fun j => !((pendingWonIds bids).contains j.id))).insertionSort rewardGE

/-- Candidate selection of the v5 POST: open eligible jobs whose id was never
attempted, sorted by descending reward (stable, as in `selectCandidatesV2`). -/
def selectCandidatesV5 (jobs : List Job) (bids : List BidRecord) : List Job :=
  ((openEligible jobs).filter
      (fun j => !((attemptedIds bids).contains j.id))).insertionSort rewardGE

/-- Outcome of one external submit call (`submitToJob`): HTTP success flag and
upstream message.  The call itself is a parameter of the cycle model. -/
structure SubmitOutcome where
  ok : Bool
  message : String
deriving DecidableEq, Repr

/-- One element of the `results` array built by the POST loop. -/
structure SubmitResult where
  jobId : String
  jobTitle : String
  agent : String
  reward : Int
  success : Bool
  message : String
deriving DecidableEq, Repr

/-- v5 `AGENT_NAMES` display-name table. -/
def AGENT_NAMES : List (String × String) :=
  [("BACKEND", "NEXUS"), ("CONTRACT", "FORGE"), ("FRONTEND", "PRISM"),
   ("PM", "CORTEX")]

/-- v5 display name: `AGENT_NAMES[agent] || agent`. -/
def displayNameV5 (agent : String) : String :=
  (((AGENT_NAMES.find? (fun p => p.1 = agent)).map Prod.snd)).getD agent

/-- v2 display name: `` `NF-${agent.charAt(0) + agent.slice(1).toLowerCase()}` ``. -/
def displayNameV2 (agent : String) : String :=
  "NF-" ++ agent.take 1 ++ lowerString (agent.drop 1)

/-- The candidate loop shared by both POST generations (`route.ts` v2 lines
615-650, v5 lines 1369-1401): walk the sorted candidates; stop when
`submitCount >= maxBids`; skip candidates scoring below `minMatchScore`;
otherwise attempt the external submit and push a result.  `submitCount` is
incremented only on success, exactly as in the source.  The per-agent API keys
are the non-null environment values asserted at module load, so the
`if (!agentKey) continue` guard never fires and is not modelled. -/
def submitLoop (matcher : Job → String × Int) (displayName : String → String)
    (submit : Job → SubmitOutcome) (minScore : Int) (maxBids : Nat) :
    List Job → Nat → List SubmitResult
  | [], _ => []
  | j :: rest, submitCount =>
    if maxBids ≤ submitCount then []
    else
      let m := matcher j
      if m.2 < minScore then
        submitLoop matcher displayName submit minScore maxBids rest submitCount
      else
        let o := submit j
        { jobId := j.id
          jobTitle := if j.title = "" then "Untitled" else j.title
          agent := displayName m.1
          reward := j.reward
          success := o.ok
          message := o.message } ::
        submitLoop matcher displayName submit minScore maxBids rest
          (if o.ok then submitCount + 1 else submitCount)

/-- Body of one `saveToHistory` ledger write (the POST to `/api/bids`). -/
structure LedgerWrite where
  jobId : String
  jobTitle : String
  agent : String
  bidAmount : Int
  status : String
  message : String
deriving DecidableEq, Repr

/-- Record status chosen by v5 `saveToHistory`: `pending` on success,
`submitted` when the upstream message says "already submitted", else `failed`. -/
def v5WriteStatus (success : Bool) (message : String) : String :=
  if success then "pending"
  else if strContains (lowerString message) "already submitted" then "submitted"
  else "failed"

/-- Record status chosen by v2 `saveToHistory`: `pending` on success, else
`failed`. -/
def v2WriteStatus (success : Bool) : String :=
  if success then "pending" else "failed"

/-- v5 `saveToHistory` write body for one submit result. -/
def saveToHistoryV5 (r : SubmitResult) : LedgerWrite :=
  { jobId := r.jobId, jobTitle := r.jobTitle, agent := r.agent,
    bidAmount := r.reward, status := v5WriteStatus r.success r.message,
    message := r.message }

/-- v2 `saveToHistory` write body for one submit result. -/
def saveToHistoryV2 (r : SubmitResult) : LedgerWrite :=
  { jobId := r.jobId, jobTitle := r.jobTitle, agent := r.agent,
    bidAmount := r.reward, status := v2WriteStatus r.success,
    message := r.message }

/-- JSON summary a POST cycle returns, together with the ledger writes it
performed.  On the fetch-error branch the source returns only
`{success, error, details}` with HTTP 500; the count fields absent from that
JSON are modelled as zeros.  The purely informational `message` field of the
success response is not modelled. -/
structure CycleResponse where
  success : Bool
  httpStatus : Nat
  errorDetails : Option String
  totalJobs : Nat
  allOpenJobs : Nat
  alreadySubmitted : Nat
  newJobsFound : Nat
  openJobs : Nat
  submissionsAttempted : Nat
  submissionsSuccessful : Nat
  submissionsFailed : Nat
  results : List SubmitResult
  ledgerWrites : List LedgerWrite
deriving DecidableEq, Repr

/-- v5 POST handler (`route.ts` v5 lines 1309-1416).  `bidsFetch` is the bid
list obtained from `/api/bids` (`none` when that call failed — the handler then
continues with an empty skip set); `jobsFetch` is the upstream jobs call;
`submit` is the external per-job submit call. -/
def runCycleV5 (bidsFetch : Option (List BidRecord))
    (jobsFetch : Except String (List Job)) (submit : Job → SubmitOutcome)
    (minMatchScore : Int) (maxBids : Nat) : CycleResponse :=
  let attempted :=
    match bidsFetch with
    | some bids => attemptedIds bids
    | none => []
  match jobsFetch with
  | .error e =>
    { success := false, httpStatus := 500, errorDetails := some e,
      totalJobs := 0, allOpenJobs := 0, alreadySubmitted := 0,
      newJobsFound := 0, openJobs := 0, submissionsAttempted := 0,
      submissionsSuccessful := 0, submissionsFailed := 0,
      results := [], ledgerWrites := [] }
  | .ok jobs =>
    let allOpen := openEligible jobs
    let newJobs := allOpen.filter (fun j => !(attempted.contains j.id))
    let sortedJobs := newJobs.insertionSort rewardGE
    let results :=
      submitLoop findBestAgent displayNameV5 submit minMatchScore maxBids
        sortedJobs 0
    { success := true, httpStatus := 200, errorDetails := none,
      totalJobs := jobs.length, allOpenJobs := allOpen.length,
      alreadySubmitted := attempted.dedup.length,
      newJobsFound := newJobs.length, openJobs := sortedJobs.length,
      submissionsAttempted := results.length,
      submissionsSuccessful := (results.filter (fun r => r.success)).length,
      submissionsFailed := (results.filter (fun r => !r.success)).length,
      results := results,
      ledgerWrites := results.map saveToHistoryV5 }

/-- v2 POST handler (`route.ts` v2 lines 551-668): same pipeline with the
pending/won skip set, the v2 matcher and the v2 ledger-write status.  The
extra diagnostic fields of its error response (`existingBids`, `pendingBids`)
are not modelled. -/
def runCycleV2 (bidsFetch : Option (List BidRecord))
    (jobsFetch : Except String (List Job)) (submit : Job → SubmitOutcome)
    (minMatchScore : Int) (maxBids : Nat) : CycleResponse :=
  let pendingIds :=
    match bidsFetch with
    | some bids => pendingWonIds bids
    | none => []
  match jobsFetch with
  | .error e =>
    { success := false, httpStatus := 500, errorDetails := some e,
      totalJobs := 0, allOpenJobs := 0, alreadySubmitted := 0,
      newJobsFound := 0, openJobs := 0, submissionsAttempted := 0,
      submissionsSuccessful := 0, submissionsFailed := 0,
      results := [], ledgerWrites := [] }
  | .ok jobs =>
    let allOpen := openEligible jobs
    let newJobs := allOpen.filter (fun j => !(pendingIds.contains j.id))
    let sortedJobs := newJobs.insertionSort rewardGE
    let results :=
      submitLoop findBestAgentV2 displayNameV2 submit minMatchScore maxBids
        sortedJobs 0
    { success := true, httpStatus := 200, errorDetails := none,
      totalJobs := jobs.length, allOpenJobs := allOpen.length,
      alreadySubmitted := pendingIds.dedup.length,
      newJobsFound := newJobs.length, openJobs := sortedJobs.length,
      submissionsAttempted := results.length,
      submissionsSuccessful := (results.filter (fun r => r.success)).length,
      submissionsFailed := (results.filter (fun r => !r.success)).length,
      results := results,
      ledgerWrites := results.map saveToHistoryV2 }

/-! ## Treasury guard (`TreasuryManager.processSpend`, `client.ts` lines 494-535) -/

/-- The values `Number(request.amount) / Number(balance.openwork)` can take:
a finite rational, the two infinities, or `NaN` (from `0 / 0`). -/
inductive JsNum where
  | num (q : ℚ)
  | posInf
  | negInf
  | nan
deriving DecidableEq, Repr

/-- IEEE-754 division semantics of the JS `/` operator restricted to exact
operands: division by zero produces `±Infinity`, and `0 / 0` produces `NaN`.
Rounding of finite quotients is idealised as exact rational division. -/
def jsDiv (a b : ℚ) : JsNum :=
  if b = 0 then
    if a = 0 then JsNum.nan
    else if 0 < a then JsNum.posInf
    else JsNum.negInf
  else JsNum.num (a / b)

/-- JS `x > c` for a possibly non-finite left operand: any comparison with
`NaN` is false. -/
def jsGT (x : JsNum) (c : ℚ) : Bool :=
  match x with
  | JsNum.num q => decide (c < q)
  | JsNum.posInf => true
  | JsNum.negInf => false
  | JsNum.nan => false

/-- `TREASURY_GUARDRAIL.humanOversightThreshold = 0.05` (`client.ts` line 841). -/
def humanOversightThreshold : ℚ := 5 / 100

/-- Oversight queue entry built by `createOversightRequest` (`client.ts`
lines 524-535); generated id and timestamp are opaque and omitted. -/
structure OversightRequest where
  amount : ℚ
  treasuryPercentage : JsNum
  status : String
deriving DecidableEq, Repr

/-- Return value of `processSpend`, with the oversight request it enqueues
(if any) made explicit. -/
structure SpendResult where
  success : Bool
  requiresOversight : Bool
  oversight : Option OversightRequest
deriving DecidableEq, Repr

/-- `TreasuryManager.processSpend` decision logic (`client.ts` lines 494-519):
compute `amount / balance` with JS division semantics; when the percentage
compares greater than the threshold, refuse and enqueue a PENDING oversight
request; otherwise approve. -/
def processSpend (amount balance : ℚ) : SpendResult :=
  let spendPercentage := jsDiv amount balance
  if jsGT spendPercentage humanOversightThreshold then
    { success := false, requiresOversight := true,
      oversight := some
        { amount := amount, treasuryPercentage := spendPercentage,
          status := "PENDING" } }
  else
    { success := true, requiresOversight := false, oversight := none }

/-! ## Cycle scheduler (`src/app/api/autopilot/engine.ts`) -/

/-- `CYCLE_INTERVAL = 5 * 60 * 1000` milliseconds. -/
def CYCLE_INTERVAL : Int := 5 * 60 * 1000

/-- The module-level `state` object of `engine.ts` (the activity log and the
stored `lastResult` are not modelled; `intervalArmed` stands for
`intervalId !== null`).  Timestamps are milliseconds since epoch. -/
structure EngineState where
  isRunning : Bool
  intervalArmed : Bool
  cycleCount : Nat
  lastCycle : Option Int
  startedAt : Option Int
  initialized : Bool
deriving DecidableEq, Repr

/-- The literal initialiser of the global `state` (`engine.ts` lines 49-58). -/
def initialEngineState : EngineState :=
  { isRunning := false, intervalArmed := false, cycleCount := 0,
    lastCycle := none, startedAt := none, initialized := false }

/-- The synchronous prefix of `runCycle()` (`engine.ts` lines 78-80): the
statements `state.cycleCount++` and `state.lastCycle = new Date()` run before
the first `await`, hence before the caller regains control. -/
def runCycleEntry (s : EngineState) (now : Int) : EngineState :=
  { s with cycleCount := s.cycleCount + 1, lastCycle := some now }

/-- `startEngine` (`engine.ts` lines 160-178): no-op when already running;
otherwise set `isRunning`, record `startedAt`, reset `cycleCount` to 0, run one
cycle immediately (fire-and-forget: only its synchronous prefix happens before
return) and arm the recurring interval timer. -/
def startEngine (s : EngineState) (now : Int) : EngineState × Bool × String :=
  if s.isRunning then (s, true, "Engine already running")
  else
    let s1 := { s with isRunning := true, startedAt := some now, cycleCount := 0 }
    let s2 := runCycleEntry s1 now
    ({ s2 with intervalArmed := true }, true, "Engine started")

/-- `stopEngine` (`engine.ts` lines 181-197). -/
def stopEngine (s : EngineState) : EngineState × Bool × String :=
  if !s.isRunning then (s, false, "Engine not running")
  else
    ({ s with intervalArmed := false, isRunning := false }, true,
      "Stopped after " ++ toString s.cycleCount ++ " cycles")

/-- Status JSON built by `getEngineStatus` (`engine.ts` lines 208-222),
computed from wall-clock deltas (`nextCycleIn` and `uptime` are floored
second counts; the activity log is not modelled). -/
structure StatusSnapshot where
  isRunning : Bool
  cycleCount : Nat
  lastCycle : Option Int
  startedAt : Option Int
  nextCycleIn : Int
  uptime : Int
deriving DecidableEq, Repr

/-- The snapshot formula of `getEngineStatus`:
`nextCycleIn = floor(max(0, CYCLE_INTERVAL - (now - lastCycle)) / 1000)` and
`uptime = floor((now - startedAt) / 1000)` (0 when the field is null). -/
def statusSnapshot (s : EngineState) (now : Int) : StatusSnapshot :=
  { isRunning := s.isRunning, cycleCount := s.cycleCount,
    lastCycle := s.lastCycle, startedAt := s.startedAt,
    nextCycleIn :=
      (match s.lastCycle with
       | some t => max 0 (CYCLE_INTERVAL - (now - t))
       | none => 0) / 1000,
    uptime :=
      match s.startedAt with
      | some t => (now - t) / 1000
      | none => 0 }

/-- `getEngineStatus` (`engine.ts` lines 200-223): on the first call of the
process (`state.initialized` false) it flips `initialized` and calls
`startEngine()` before building the snapshot; afterwards it only reads.  The
sub-millisecond gap between `startEngine`'s clock reads and the snapshot's
`new Date()` is collapsed to a single `now`. -/
def getEngineStatus (s : EngineState) (now : Int) : EngineState × StatusSnapshot :=
  if !s.initialized then
    let s1 := { s with initialized := true }
    let s2 := (startEngine s1 now).1
    (s2, statusSnapshot s2 now)
  else
    (s, statusSnapshot s now)

/-- Result object `engine.ts`'s `runCycle` stores and returns: built from the
parsed JSON of the autopilot POST on success (absent fields default to 0 / `''`
via `||`), or an all-zero summary carrying the error message when the awaited
call threw (`engine.ts` lines 138-156).  It never rethrows. -/
structure EngineCycleResult where
  success : Bool
  totalJobs : Nat
  openJobs : Nat
  newJobsFound : Nat
  alreadySubmitted : Nat
  submissionsSuccessful : Nat
  submissionsFailed : Nat
  message : String
deriving DecidableEq, Repr

/-- The `try`/`catch` body of `engine.ts` `runCycle` mapping the awaited POST
outcome to the stored `CycleResult`.  The v5 route's JSON carries no `message`
field, so `data.message || ''` yields the empty string on the ok branch. -/
def engineCycleResult (outcome : Except String CycleResponse) : EngineCycleResult :=
  match outcome with
  | .ok data =>
    { success := data.success, totalJobs := data.totalJobs,
      openJobs := data.openJobs, newJobsFound := data.newJobsFound,
      alreadySubmitted := data.alreadySubmitted,
      submissionsSuccessful := data.submissionsSuccessful,
      submissionsFailed := data.submissionsFailed, message := "" }
  | .error e =>
    { success := false, totalJobs := 0, openJobs := 0, newJobsFound := 0,
      alreadySubmitted := 0, submissionsSuccessful := 0,
      submissionsFailed := 0, message := e }

/-! ## Interleaving model of `runCycle` re-entrancy

`engine.ts` arms `setInterval(runCycle, CYCLE_INTERVAL)` and `runCycle`
contains no in-flight guard: its body awaits the autopilot POST, and while it
is suspended at an `await`, the timer (or a manual trigger) can invoke
`runCycle` again, so two cycle bodies can interleave at `await` boundaries.
The model below runs the v5 POST pipeline as a task advancing through its
`await` points (the `/api/bids` read, the jobs fetch, then one step per
submit-and-record); a trigger unconditionally adds a task, exactly as the
unguarded source does.  Coarser steps than the real code (submit and ledger
write fused) only restrict the set of interleavings, so any behaviour the
model exhibits is one the code exhibits. -/

/-- Continuation of one in-flight `runCycle` invocation, between awaits. -/
inductive CycleTask where
  | readBids
  | fetchJobs (skipIds : List String)
  | submitting (remaining : List Job) (submitCount : Nat)
  | finished
deriving DecidableEq, Repr

/-- Shared state: the persisted bid store, the engine's cycle counter and the
in-flight cycle tasks. -/
structure AutopilotSystem where
  storedBids : List BidRecord
  cycleCount : Nat
  tasks : List CycleTask
deriving DecidableEq, Repr

/-- A cycle trigger (interval timer firing, or manual POST): `runCycle` has no
re-entrancy check, so this increments `cycleCount` and starts a new task
unconditionally, whatever is still in flight. -/
def triggerCycle (s : AutopilotSystem) : AutopilotSystem :=
  { s with
    cycleCount := s.cycleCount + 1
    tasks := s.tasks ++ [CycleTask.readBids] }

/-- Advance in-flight cycle `i` across its next `await` boundary, following
the v5 POST pipeline (bids window read, candidate selection, then the submit
loop writing one ledger record per attempt).  Generated record ids and
timestamps are opaque and modelled as `""`. -/
def stepCycleTask (jobs : List Job) (submit : Job → SubmitOutcome)
    (minScore : Int) (maxBids : Nat) (s : AutopilotSystem) (i : Nat) :
    AutopilotSystem :=
  match s.tasks.get? i with
  | none => s
  | some CycleTask.finished => s
  | some CycleTask.readBids =>
    let window := (bidsGET s.storedBids).1
    { s with tasks := s.tasks.set i (CycleTask.fetchJobs (attemptedIds window)) }
  | some (CycleTask.fetchJobs skipIds) =>
    let allOpen := openEligible jobs
    let newJobs := allOpen.filter (fun j => !(skipIds.contains j.id))
    let sorted := newJobs.insertionSort rewardGE
    { s with tasks := s.tasks.set i (CycleTask.submitting sorted 0) }
  | some (CycleTask.submitting [] _) =>
    { s with tasks := s.tasks.set i CycleTask.finished }
  | some (CycleTask.submitting (j :: rest) c) =>
    if maxBids ≤ c then { s with tasks := s.tasks.set i CycleTask.finished }
    else
      let m := findBestAgent j
      if m.2 < minScore then
        { s with tasks := s.tasks.set i (CycleTask.submitting rest c) }
      else
        let o := submit j
        let r : SubmitResult :=
          { jobId := j.id
            jobTitle := if j.title = "" then "Untitled" else j.title
            agent := displayNameV5 m.1
            reward := j.reward
            success := o.ok
            message := o.message }
        let w := saveToHistoryV5 r
        let newRec : BidRecord :=
          { id := "", jobId := w.jobId, jobTitle := w.jobTitle,
            agent := w.agent, bidAmount := w.bidAmount, status := w.status,
            message := w.message, timestamp := "" }
        { s with
          storedBids := bidsPOST s.storedBids newRec "" ""
          tasks := s.tasks.set i
            (CycleTask.submitting rest (if o.ok then c + 1 else c)) }

/-- One scheduler event: a cycle trigger, or the event loop resuming in-flight
cycle `i` at its next await. -/
inductive SysEvent where
  | trigger
  | step (i : Nat)
deriving DecidableEq, Repr

/-- Run a sequence of scheduler events. -/
def runTrace (jobs : List Job) (submit : Job → SubmitOutcome) (minScore : Int)
    (maxBids : Nat) : AutopilotSystem → List SysEvent → AutopilotSystem
  | s, [] => s
  | s, SysEvent.trigger :: es =>
    runTrace jobs submit minScore maxBids (triggerCycle s) es
  | s, SysEvent.step i :: es =>
    runTrace jobs submit minScore maxBids
      (stepCycleTask jobs submit minScore maxBids s i) es

/-- Empty initial system: empty persisted ledger, no cycle yet. -/
def initialSystem : AutopilotSystem :=
  { storedBids := [], cycleCount := 0, tasks := [] }

/-! ## Concrete instances used by witnesses and counterexamples -/

/-- The record the PATCH handler produces for the matched record: status
overwritten, message overwritten only when truthy. -/
def patchedRecord (b : BidRecord) (status : String) (message : Option String) :
    BidRecord :=
  { b with
    status := status
    message :=
      match message with
      | some m => if m = "" then b.message else m
      | none => b.message }

/-- An open 100-reward job whose text matches the BACKEND skill `api`. -/
def cJobApi : Job :=
  { id := "job-1", title := "api", description := "", reward := 100,
    tags := [], status := "open" }

/-- A second open job matching BACKEND skills. -/
def cJobBot : Job :=
  { id := "job-2", title := "backend bot", description := "", reward := 50,
    tags := [], status := "open" }

/-- An open low-reward job with id `t1`. -/
def cJobT1 : Job :=
  { id := "t1", title := "api", description := "", reward := 5,
    tags := [], status := "open" }

/-- A pending ledger record for task `t1`. -/
def cPendingBid : BidRecord :=
  { id := "old", jobId := "t1", jobTitle := "", agent := "", bidAmount := 0,
    status := "pending", message := "", timestamp := "" }

/-- A stored record with a non-empty message, for the PATCH scenarios. -/
def cBid0 : BidRecord :=
  { id := "bid-1", jobId := "t1", jobTitle := "T", agent := "A", bidAmount := 3,
    status := "pending", message := "old", timestamp := "ts" }

/-- Distinct filler records (failed attempts on other tasks). -/
def cFiller (i : Nat) : BidRecord :=
  { id := "f" ++ toString i, jobId := "x" ++ toString i, jobTitle := "",
    agent := "", bidAmount := 0, status := "failed", message := "",
    timestamp := "" }

/-- A persisted store of 51 records whose oldest (position 50, beyond the GET
window) is the pending record for `t1`. -/
def cBigStore : List BidRecord := ((List.range 50).map cFiller) ++ [cPendingBid]

/-- External submit stub that always fails. -/
def submitAlwaysFail : Job → SubmitOutcome :=
  fun _ => { ok := false, message := "boom" }

/-- External submit stub that always succeeds. -/
def submitAlwaysOk : Job → SubmitOutcome :=
  fun _ => { ok := true, message := "Submitted!" }

/-- Schedule in which the interval timer fires (second `trigger`) while the
first cycle is suspended awaiting its jobs fetch, then the event loop
interleaves the two cycles; both run to completion. -/
def reentrantTrace : List SysEvent :=
  [SysEvent.trigger, SysEvent.step 0, SysEvent.trigger, SysEvent.step 1,
   SysEvent.step 0, SysEvent.step 1, SysEvent.step 0, SysEvent.step 1,
   SysEvent.step 0, SysEvent.step 1]

/-- The same single cycle run alone to completion. -/
def soloTrace : List SysEvent :=
  [SysEvent.trigger, SysEvent.step 0, SysEvent.step 0, SysEvent.step 0,
   SysEvent.step 0]

/-! ## Helper lemmas -/

theorem agentScore_foldl (c : String) (skills : List String) (a : Int) :
    skills.foldl (fun score skill =>
        if strContains c skill then score + 12 else score) a
      = a + 12 * (skills.countP (fun s => strContains c s) : ℤ) := by
  induction skills generalizing a with
  | nil => simp
  | cons s rest ih =>
    simp only [List.foldl_cons, List.countP_cons]
    by_cases h : strContains c s
    · rw [if_pos h, ih]
      simp only [h, if_pos]
      push_cast
      ring
    · rw [if_neg h, ih]
      simp [h]

theorem agentScore_eq (c : String) (skills : List String) :
    agentScore c skills = 12 * (skills.countP (fun s => strContains c s) : ℤ) := by
  unfold agentScore
  rw [agentScore_foldl]
  ring

theorem bestFold_spec {α : Type} (score : α → Int) (nameOf : α → String)
    (l : List α) : ∀ init : String × Int,
    init.2 ≤ (bestFold score nameOf init l).2 ∧
    (∀ p ∈ l, score p ≤ (bestFold score nameOf init l).2) ∧
    (bestFold score nameOf init l = init ∨
      ∃ l₁ p l₂, l = l₁ ++ p :: l₂ ∧
        bestFold score nameOf init l = (nameOf p, score p) ∧
        init.2 < score p ∧ ∀ q ∈ l₁, score q < score p) := by
  induction l with
  | nil =>
    intro init
    refine ⟨le_refl _, ?_, Or.inl rfl⟩
    intro p hp
    cases hp
  | cons a l ih =>
    intro init
    by_cases h : init.2 < score a
    · have hfold : bestFold score nameOf init (a :: l) =
          bestFold score nameOf (nameOf a, score a) l := by
        simp [bestFold, List.foldl_cons, if_pos h]
      obtain ⟨h1, h2, h3⟩ := ih (nameOf a, score a)
      rw [hfold]
      refine ⟨le_trans (le_of_lt h) h1, ?_, ?_⟩
      · intro p hp
        rcases List.mem_cons.mp hp with rfl | hp
        · exact h1
        · exact h2 p hp
      · rcases h3 with heq | ⟨l₁, p, l₂, hsplit, heq, hlt, hall⟩
        · refine Or.inr ⟨[], a, l, rfl, heq, h, ?_⟩
          intro q hq
          cases hq
        · refine Or.inr ⟨a :: l₁, p, l₂, by simp [hsplit], heq,
            lt_trans h hlt, ?_⟩
          intro q hq
          rcases List.mem_cons.mp hq with rfl | hq
          · exact hlt
          · exact hall q hq
    · have hfold : bestFold score nameOf init (a :: l) =
          bestFold score nameOf init l := by
        simp [bestFold, List.foldl_cons, if_neg h]
      obtain ⟨h1, h2, h3⟩ := ih init
      rw [hfold]
      push_neg at h
      refine ⟨h1, ?_, ?_⟩
      · intro p hp
        rcases List.mem_cons.mp hp with rfl | hp
        · exact le_trans h h1
        · exact h2 p hp
      · rcases h3 with heq | ⟨l₁, p, l₂, hsplit, heq, hlt, hall⟩
        · exact Or.inl heq
        · refine Or.inr ⟨a :: l₁, p, l₂, by simp [hsplit], heq, hlt, ?_⟩
          intro q hq
          rcases List.mem_cons.mp hq with rfl | hq
          · exact lt_of_le_of_lt h hlt
          · exact hall q hq

theorem findBestAgent_eq_bestFold (job : Job) :
    findBestAgent job =
      bestFold (fun p => agentScore (jobTextV5 job) p.2) Prod.fst ("PM", 0)
        AGENTS := rfl

theorem submitLoop_map_sublist (matcher : Job → String × Int)
    (displayName : String → String) (submit : Job → SubmitOutcome)
    (minScore : Int) (maxBids : Nat) (l : List Job) : ∀ c : Nat,
    List.Sublist
      ((submitLoop matcher displayName submit minScore maxBids l c).map
        SubmitResult.jobId)
      (l.map Job.id) := by
  induction l with
  | nil =>
    intro c
    simp [submitLoop]
  | cons j rest ih =>
    intro c
    simp only [submitLoop]
    by_cases h1 : maxBids ≤ c
    · rw [if_pos h1]
      simp
    · rw [if_neg h1]
      by_cases h2 : (matcher j).2 < minScore
      · rw [if_pos h2]
        simp only [List.map_cons]
        exact (ih c).cons _
      · rw [if_neg h2]
        simp only [List.map_cons]
        exact (ih _).cons₂ _

theorem submitLoop_successes (matcher : Job → String × Int)
    (displayName : String → String) (submit : Job → SubmitOutcome)
    (minScore : Int) (maxBids : Nat) (l : List Job) : ∀ c : Nat,
    ((submitLoop matcher displayName submit minScore maxBids l c).filter
      (fun r => r.success)).length ≤ maxBids - c := by
  induction l with
  | nil =>
    intro c
    simp [submitLoop]
  | cons j rest ih =>
    intro c
    simp only [submitLoop]
    by_cases h1 : maxBids ≤ c
    · rw [if_pos h1]
      simp
    · rw [if_neg h1]
      by_cases h2 : (matcher j).2 < minScore
      · rw [if_pos h2]
        exact ih c
      · rw [if_neg h2]
        by_cases h3 : (submit j).ok
        · simp only [List.filter_cons, h3, if_pos, List.length_cons]
          have := ih (c + 1)
          omega
        · have hsf : (submit j).ok = false := by
            simpa using h3
          simp only [List.filter_cons, hsf, Bool.false_eq_true, if_false]
          exact ih c

theorem insertionSort_filter_reward (l : List Job) (r : Int) :
    (l.insertionSort rewardGE).filter (fun j => j.reward == r)
      = l.filter (fun j => j.reward == r) := by
  have hperm :
      ((l.insertionSort rewardGE).filter (fun j => j.reward == r)).Perm
        (l.filter (fun j => j.reward == r)) :=
    (List.perm_insertionSort rewardGE l).filter _
  have hpw : (l.filter (fun j => j.reward == r)).Pairwise rewardGE := by
    refine List.pairwise_of_forall_mem_list ?_
    intro a ha b hb
    have ha3 : a.reward = r := by
      simpa using (List.mem_filter.mp ha).2
    have hb3 : b.reward = r := by
      simpa using (List.mem_filter.mp hb).2
    unfold rewardGE
    omega
  have hsub :
      List.Sublist (l.filter (fun j => j.reward == r))
        (l.insertionSort rewardGE) :=
    List.sublist_insertionSort hpw (List.filter_sublist l)
  have hsub2 :
      List.Sublist (l.filter (fun j => j.reward == r))
        ((l.insertionSort rewardGE).filter (fun j => j.reward == r)) := by
    have h3 := hsub.filter (fun j => j.reward == r)
    rwa [List.filter_filter, show
      (fun a => (a.reward == r) && (a.reward == r)) = fun (a : Job) => a.reward == r
      from funext fun a => Bool.and_self _] at h3
  exact (hsub2.eq_of_length hperm.length_eq.symm).symm

theorem bidsPATCH_notFound (bidId status : String) (message : Option String) :
    ∀ bids : List BidRecord, (∀ b ∈ bids, b.id ≠ bidId) →
      bidsPATCH bids bidId status message = (none, bids) := by
  intro bids
  induction bids with
  | nil => intro _; rfl
  | cons b rest ih =>
    intro h
    simp only [bidsPATCH]
    rw [if_neg (h b (List.mem_cons_self b rest))]
    rw [ih (fun a ha => h a (List.mem_cons_of_mem b ha))]

theorem bidsPATCH_found (bidId status : String) (message : Option String) :
    ∀ (l₁ : List BidRecord) (b : BidRecord) (l₂ : List BidRecord),
      b.id = bidId → (∀ a ∈ l₁, a.id ≠ bidId) →
      bidsPATCH (l₁ ++ b :: l₂) bidId status message =
        (some (patchedRecord b status message),
          l₁ ++ patchedRecord b status message :: l₂) := by
  intro l₁
  induction l₁ with
  | nil =>
    intro b l₂ hid _
    simp only [List.nil_append, bidsPATCH]
    rw [if_pos hid]
    rfl
  | cons a l₁ ih =>
    intro b l₂ hid h
    simp only [List.cons_append, bidsPATCH]
    rw [if_neg (h a (List.mem_cons_self a l₁))]
    simp only [List.append_eq]
    rw [ih b l₂ hid (fun x hx => h x (List.mem_cons_of_mem a hx))]

/-- Claim C7: when the upstream jobs fetch errors or returns a non-success
status, both generations of the cycle POST make zero submission attempts and
zero ledger writes and return a well-formed summary (HTTP 500, `success:
false`, the fetch error surfaced in `details`) rather than throwing; the
engine's `runCycle` likewise converts an exception of its awaited call into an
all-zero summary carrying the error message. -/
theorem fetch_error_yields_empty_summary (bidsFetch : Option (List BidRecord))
    (e : String) (submit : Job → SubmitOutcome) (minScore : Int)
    (maxBids : Nat) :
    (runCycleV5 bidsFetch (.error e) submit minScore maxBids).results = [] ∧
    (runCycleV5 bidsFetch (.error e) submit minScore maxBids).ledgerWrites = [] ∧
    (runCycleV5 bidsFetch (.error e) submit minScore maxBids).success = false ∧
    (runCycleV5 bidsFetch (.error e) submit minScore maxBids).httpStatus = 500 ∧
    (runCycleV5 bidsFetch (.error e) submit minScore maxBids).errorDetails = some e ∧
    (runCycleV2 bidsFetch (.error e) submit minScore maxBids).results = [] ∧
    (runCycleV2 bidsFetch (.error e) submit minScore maxBids).ledgerWrites = [] ∧
    (runCycleV2 bidsFetch (.error e) submit minScore maxBids).success = false ∧
    (runCycleV2 bidsFetch (.error e) submit minScore maxBids).httpStatus = 500 ∧
    (runCycleV2 bidsFetch (.error e) submit minScore maxBids).errorDetails = some e ∧
    engineCycleResult (.error e) =
      { success := false, totalJobs := 0, openJobs := 0, newJobsFound := 0,
        alreadySubmitted := 0, submissionsSuccessful := 0,
        submissionsFailed := 0, message := e } :=
  ⟨rfl, rfl, rfl, rfl, rfl, rfl, rfl, rfl, rfl, rfl, rfl⟩

/-- Claim C8 (amended): for every stored ledger and `updateStatus` call, if no
record carries the given `bidId` the handler returns 404 and the ledger is
unchanged; if a record matches, exactly the first matching record is replaced
by `patchedRecord` (status overwritten; message overwritten only when the
provided message is truthy, i.e. non-empty) and returned, with every other
record and the ledger length untouched. -/
theorem updateStatus_spec (bids : List BidRecord) (bidId status : String)
    (message : Option String) :
    ((∀ b ∈ bids, b.id ≠ bidId) →
      bidsPATCH bids bidId status message = (none, bids)) ∧
    (∀ (l₁ : List BidRecord) (b : BidRecord) (l₂ : List BidRecord),
      bids = l₁ ++ b :: l₂ → b.id = bidId → (∀ a ∈ l₁, a.id ≠ bidId) →
      bidsPATCH bids bidId status message =
        (some (patchedRecord b status message),
          l₁ ++ patchedRecord b status message :: l₂)) := by
  constructor
  · exact bidsPATCH_notFound bidId status message bids
  · intro l₁ b l₂ hb hid h
    subst hb
    exact bidsPATCH_found bidId status message l₁ b l₂ hid h

/-- Claim C8, witness: a missing id yields 404 with the ledger unchanged, and
a matching id with a truthy message yields the patched record. -/
theorem updateStatus_spec_witness :
    bidsPATCH [cBid0] "nope" "won" none = (none, [cBid0]) ∧
    bidsPATCH [cBid0] "bid-1" "won" (some "fine") =
      (some (patchedRecord cBid0 "won" (some "fine")),
        [patchedRecord cBid0 "won" (some "fine")]) :=
  ⟨(updateStatus_spec [cBid0] "nope" "won" none).1 (by decide),
   (updateStatus_spec [cBid0] "bid-1" "won" (some "fine")).2 [] cBid0 [] rfl
     (by decide) (by decide)⟩

/-- Claim C8, counterexample to the claim as stated: a provided empty-string
message is falsy in `if (message)`, so the PATCH updates the status but keeps
the old message instead of the provided one. -/
theorem updateStatus_empty_message_counterexample :
    (bidsPATCH [cBid0] "bid-1" "won" (some "")).1 =
      some { cBid0 with status := "won" } ∧
    ((bidsPATCH [cBid0] "bid-1" "won" (some "")).1.map BidRecord.message) =
      some "old" ∧
    "old" ≠ "" :=
  ⟨by decide, by decide, by decide⟩

/-- Claim C9: a ledger POST prepends the new record and truncates the store to
100 records (newest first, oldest dropped); the ledger GET returns only the
first 50 stored records, so the cycle's de-duplication set is built from the
50 newest attempts — concretely, with a pending record for `t1` sitting at
position 50 of the store, the candidate selection fed by the GET window still
returns the `t1` job (while selection over the full store would have blocked
it). -/
theorem ledger_window_spec (bids : List BidRecord) (b : BidRecord)
    (freshId now : String) :
    (bidsPOST bids b freshId now).length ≤ 100 ∧
    bidsPOST bids b freshId now =
      ({ b with id := freshId, timestamp := now } : BidRecord) :: bids.take 99 ∧
    (bidsGET bids).1 = bids.take 50 ∧
    cPendingBid ∈ cBigStore ∧
    cPendingBid.status = "pending" ∧
    cPendingBid.jobId = cJobT1.id ∧
    selectCandidatesV5 [cJobT1] (bidsGET cBigStore).1 = [cJobT1] ∧
    selectCandidatesV2 [cJobT1] (bidsGET cBigStore).1 = [cJobT1] ∧
    selectCandidatesV5 [cJobT1] cBigStore = [] := by
  refine ⟨?_, ?_, rfl, by decide, by decide, by decide, by decide, by decide,
    by decide⟩
  · unfold bidsPOST
    rw [List.length_take]
    exact min_le_left _ _
  · unfold bidsPOST
    have h100 : (100 : Nat) = 99 + 1 := rfl
    rw [h100, List.take_succ_cons]

/-- Claim C10: `getEngineStatus` is not read-only — called on the process's
initial state it sets `initialized`, starts the engine (isRunning true,
`cycleCount` reset to 0 then bumped to 1 by the immediately launched cycle,
interval timer armed); on any already-initialized state it returns the
wall-clock snapshot and leaves the state untouched. -/
theorem getEngineStatus_spec :
    (∀ now : Int,
      getEngineStatus initialEngineState now =
        ({ isRunning := true, intervalArmed := true, cycleCount := 1,
           lastCycle := some now, startedAt := some now, initialized := true },
         statusSnapshot
           { isRunning := true, intervalArmed := true, cycleCount := 1,
             lastCycle := some now, startedAt := some now,
             initialized := true } now)) ∧
    (∀ (s : EngineState) (now : Int), s.initialized = true →
      getEngineStatus s now = (s, statusSnapshot s now)) := by
  constructor
  · intro now
    rfl
  · intro s now h
    unfold getEngineStatus
    rw [h]
    simp

/-- Claim C10, witness: on an initialized state the status call is pure. -/
theorem getEngineStatus_spec_witness :
    getEngineStatus { initialEngineState with initialized := true } 7 =
      ({ initialEngineState with initialized := true },
        statusSnapshot { initialEngineState with initialized := true } 7) :=
  getEngineStatus_spec.2 { initialEngineState with initialized := true } 7 rfl

/-- Claim C2 (amended): for positive balance the guard approves exactly when
`amount / balance ≤ 0.05`; every refusal enqueues a PENDING oversight request
carrying the computed percentage; for zero balance and nonzero amount the
division yields `Infinity` and the guard refuses — but for zero balance *and*
zero amount the division yields `NaN`, `NaN > 0.05` is false, and the guard
approves (it does not always fail safe at zero balance). -/
theorem processSpend_spec (amount balance : ℚ) :
    (0 < balance →
      (((processSpend amount balance).success = true) ↔
        amount / balance ≤ 5 / 100)) ∧
    ((processSpend amount balance).requiresOversight = true →
      (processSpend amount balance).oversight =
        some { amount := amount, treasuryPercentage := jsDiv amount balance,
               status := "PENDING" }) ∧
    (balance = 0 → 0 < amount →
      (processSpend amount balance).success = false) ∧
    (balance = 0 → amount = 0 →
      (processSpend amount balance).success = true) := by
  refine ⟨?_, ?_, ?_, ?_⟩
  · intro hb
    have hbne : balance ≠ 0 := ne_of_gt hb
    unfold processSpend jsDiv
    rw [if_neg hbne]
    by_cases h : humanOversightThreshold < amount / balance
    · rw [if_pos (by simp [jsGT, h])]
      constructor
      · intro hfalse
        cases hfalse
      · intro hle
        exact absurd h (not_lt.mpr hle)
    · rw [if_neg (by simp [jsGT]; exact not_lt.mp h)]
      exact iff_of_true rfl (not_lt.mp h)
  · unfold processSpend
    by_cases h : jsGT (jsDiv amount balance) humanOversightThreshold
    · rw [if_pos h]
      intro _
      rfl
    · rw [if_neg h]
      intro hcon
      cases hcon
  · intro hb ha
    have hane : amount ≠ 0 := ne_of_gt ha
    unfold processSpend jsDiv
    rw [hb]
    rw [if_pos rfl, if_neg hane, if_pos ha]
    rfl
  · intro hb ha
    unfold processSpend jsDiv
    rw [hb, ha]
    rw [if_pos rfl, if_pos rfl]
    rfl

/-- Claim C2, counterexample to the claim as stated: at `amount = 0`,
`balance = 0` the computed percentage is `NaN`, the `>` comparison is false,
and the guard returns `approved = true` — not the claimed unconditional
refusal at zero balance. -/
theorem processSpend_zero_zero_counterexample :
    processSpend 0 0 =
      { success := true, requiresOversight := false, oversight := none } := by
  decide

/-- Claim C2, witness: threshold behaviour at concrete inputs — 4% approved,
refusal carries a PENDING request, positive spend against a zero balance
refused. -/
theorem processSpend_spec_witness :
    ((processSpend 4 100).success = true ↔ (4 : ℚ) / 100 ≤ 5 / 100) ∧
    (processSpend 6 100).oversight =
      some { amount := 6, treasuryPercentage := jsDiv 6 100,
             status := "PENDING" } ∧
    (processSpend 5 0).success = false := by
  have h1 : jsDiv 6 100 = JsNum.num (6 / 100) := by
    unfold jsDiv
    rw [if_neg (by norm_num : ¬((100 : ℚ) = 0))]
  have hcond : jsGT (jsDiv 6 100) humanOversightThreshold = true := by
    rw [h1]
    simp only [jsGT, humanOversightThreshold, decide_eq_true_eq]
    norm_num
  have hreq : (processSpend 6 100).requiresOversight = true := by
    unfold processSpend
    rw [if_pos hcond]
  exact ⟨(processSpend_spec 4 100).1 (by norm_num),
    (processSpend_spec 6 100).2.1 hreq,
    (processSpend_spec 5 0).2.2.1 rfl (by norm_num)⟩

/-- Claim C6 (amended): within one cycle the number of *successful*
submissions never exceeds `maxBids` (in either generation of the POST), and
exactly one ledger record is written per attempt; failed attempts do not count
toward the cap, so the number of attempts (and hence of ledger records) is
bounded only by the number of candidates, not by `maxBids`. -/
theorem maxBids_caps_successes (bidsFetch : Option (List BidRecord))
    (jobsFetch : Except String (List Job)) (submit : Job → SubmitOutcome)
    (minScore : Int) (maxBids : Nat) :
    (runCycleV5 bidsFetch jobsFetch submit minScore maxBids).submissionsSuccessful
        ≤ maxBids ∧
    (runCycleV2 bidsFetch jobsFetch submit minScore maxBids).submissionsSuccessful
        ≤ maxBids ∧
    (runCycleV5 bidsFetch jobsFetch submit minScore maxBids).ledgerWrites.length
      = (runCycleV5 bidsFetch jobsFetch submit minScore maxBids).submissionsAttempted ∧
    (runCycleV2 bidsFetch jobsFetch submit minScore maxBids).ledgerWrites.length
      = (runCycleV2 bidsFetch jobsFetch submit minScore maxBids).submissionsAttempted := by
  refine ⟨?_, ?_, ?_, ?_⟩
  · cases jobsFetch with
    | error e => simp [runCycleV5]
    | ok jobs =>
      have h := submitLoop_successes findBestAgent displayNameV5 submit
        minScore maxBids
        (((openEligible jobs).filter (fun j =>
          !((match bidsFetch with
             | some bids => attemptedIds bids
             | none => []).contains j.id))).insertionSort rewardGE) 0
      simpa [runCycleV5] using le_trans h (Nat.sub_le _ _)
  · cases jobsFetch with
    | error e => simp [runCycleV2]
    | ok jobs =>
      have h := submitLoop_successes findBestAgentV2 displayNameV2 submit
        minScore maxBids
        (((openEligible jobs).filter (fun j =>
          !((match bidsFetch with
             | some bids => pendingWonIds bids
             | none => []).contains j.id))).insertionSort rewardGE) 0
      simpa [runCycleV2] using le_trans h (Nat.sub_le _ _)
  · cases jobsFetch with
    | error e => simp [runCycleV5]
    | ok jobs => simp [runCycleV5]
  · cases jobsFetch with
    | error e => simp [runCycleV2]
    | ok jobs => simp [runCycleV2]

/-- Claim C6, counterexample to the claim as stated: with `maxBids = 1` and
two matching candidates whose submits both fail, the loop makes two attempts
and writes two ledger records — the attempt count exceeds the cap because only
successes increment `submitCount`. -/
theorem maxBids_attempts_counterexample :
    (runCycleV5 (some []) (.ok [cJobApi, cJobBot]) submitAlwaysFail 5
        1).submissionsAttempted = 2 ∧
    (runCycleV5 (some []) (.ok [cJobApi, cJobBot]) submitAlwaysFail 5
        1).ledgerWrites.length = 2 ∧
    ¬((runCycleV5 (some []) (.ok [cJobApi, cJobBot]) submitAlwaysFail 5
        1).submissionsAttempted ≤ 1) :=
  ⟨by decide, by decide, by decide⟩

/-- Claim C3: `runCycle` carries no re-entrancy guard — a trigger
unconditionally starts a new cycle body — so when the interval timer fires
while a cycle is suspended at an await, two cycles run interleaved; both read
the ledger before either writes, and the same job is submitted and recorded
twice, whereas the first cycle alone writes one record. -/
theorem runCycle_reentrant_duplicate_writes :
    (∀ s : AutopilotSystem,
      triggerCycle s =
        { s with
          cycleCount := s.cycleCount + 1
          tasks := s.tasks ++ [CycleTask.readBids] }) ∧
    (runTrace [cJobApi] submitAlwaysOk 5 3 initialSystem
        (reentrantTrace.take 4)).tasks =
      [CycleTask.fetchJobs [], CycleTask.fetchJobs []] ∧
    (runTrace [cJobApi] submitAlwaysOk 5 3 initialSystem
        (reentrantTrace.take 4)).cycleCount = 2 ∧
    ((runTrace [cJobApi] submitAlwaysOk 5 3 initialSystem
        reentrantTrace).storedBids.countP (fun b => b.jobId == "job-1")) = 2 ∧
    ((runTrace [cJobApi] submitAlwaysOk 5 3 initialSystem
        soloTrace).storedBids.countP (fun b => b.jobId == "job-1")) = 1 :=
  ⟨fun _ => rfl, by decide, by decide, by decide, by decide⟩

/-- Claim C5: candidate selection returns exactly the fetched jobs with
`status == "open"` and `reward > 0` that survive the ledger filter (a
permutation of the filtered list), sorted by descending reward
(`Pairwise rewardGE`) with ties kept in source order (the filter at any fixed
reward is unchanged by the sort — the stable-sort property); and within a
cycle the attempted jobs form an order-preserving sublist of that sorted
candidate list (sequential processing in sorted order), in both generations of
the POST. -/
theorem selectCandidates_spec (jobs : List Job) (bids : List BidRecord) :
    (selectCandidatesV5 jobs bids).Perm
      ((openEligible jobs).filter
        (fun j => !((attemptedIds bids).contains j.id))) ∧
    (selectCandidatesV5 jobs bids).Pairwise rewardGE ∧
    (∀ r : Int,
      (selectCandidatesV5 jobs bids).filter (fun j => j.reward == r) =
        ((openEligible jobs).filter
          (fun j => !((attemptedIds bids).contains j.id))).filter
          (fun j => j.reward == r)) ∧
    (selectCandidatesV2 jobs bids).Perm
      ((openEligible jobs).filter
        (fun j => !((pendingWonIds bids).contains j.id))) ∧
    (selectCandidatesV2 jobs bids).Pairwise rewardGE ∧
    (∀ r : Int,
      (selectCandidatesV2 jobs bids).filter (fun j => j.reward == r) =
        ((openEligible jobs).filter
          (fun j => !((pendingWonIds bids).contains j.id))).filter
          (fun j => j.reward == r)) ∧
    (∀ (submit : Job → SubmitOutcome) (minScore : Int) (maxBids : Nat),
      List.Sublist
        ((runCycleV5 (some bids) (.ok jobs) submit minScore
            maxBids).results.map SubmitResult.jobId)
        ((selectCandidatesV5 jobs bids).map Job.id) ∧
      List.Sublist
        ((runCycleV2 (some bids) (.ok jobs) submit minScore
            maxBids).results.map SubmitResult.jobId)
        ((selectCandidatesV2 jobs bids).map Job.id)) := by
  refine ⟨List.perm_insertionSort rewardGE _,
    List.sorted_insertionSort rewardGE _,
    fun r => insertionSort_filter_reward _ r,
    List.perm_insertionSort rewardGE _,
    List.sorted_insertionSort rewardGE _,
    fun r => insertionSort_filter_reward _ r,
    ?_⟩
  intro submit minScore maxBids
  constructor
  · have hres : (runCycleV5 (some bids) (.ok jobs) submit minScore
        maxBids).results =
      submitLoop findBestAgent displayNameV5 submit minScore maxBids
        (selectCandidatesV5 jobs bids) 0 := rfl
    rw [hres]
    exact submitLoop_map_sublist findBestAgent displayNameV5 submit minScore
      maxBids (selectCandidatesV5 jobs bids) 0
  · have hres : (runCycleV2 (some bids) (.ok jobs) submit minScore
        maxBids).results =
      submitLoop findBestAgentV2 displayNameV2 submit minScore maxBids
        (selectCandidatesV2 jobs bids) 0 := rfl
    rw [hres]
    exact submitLoop_map_sublist findBestAgentV2 displayNameV2 submit minScore
      maxBids (selectCandidatesV2 jobs bids) 0

/-- Claim C5, witness: the stability conjunct evaluated at a concrete job
list and reward. -/
theorem selectCandidates_spec_witness :
    (selectCandidatesV5 [cJobApi, cJobBot] []).filter
        (fun j => j.reward == 100) =
      ((openEligible [cJobApi, cJobBot]).filter
        (fun j => !((attemptedIds []).contains j.id))).filter
        (fun j => j.reward == 100) :=
  (selectCandidates_spec [cJobApi, cJobBot] []).2.2.1 100

/-- Claim C1: a task with a pending or won ledger record (among the bid
records the cycle reads) is excluded from the candidate list of both POST
generations, and no submission attempt is made for its id in that cycle. -/
theorem dedup_excludes_pending_won (jobs : List Job) (bids : List BidRecord)
    (tid : String) (submit : Job → SubmitOutcome) (minScore : Int)
    (maxBids : Nat)
    (h : ∃ b ∈ bids, b.jobId = tid ∧
      (b.status = "pending" ∨ b.status = "won")) :
    (∀ j ∈ selectCandidatesV2 jobs bids, j.id ≠ tid) ∧
    (∀ j ∈ selectCandidatesV5 jobs bids, j.id ≠ tid) ∧
    (∀ r ∈ (runCycleV2 (some bids) (.ok jobs) submit minScore
        maxBids).results, r.jobId ≠ tid) ∧
    (∀ r ∈ (runCycleV5 (some bids) (.ok jobs) submit minScore
        maxBids).results, r.jobId ≠ tid) := by
  obtain ⟨b, hb, hbid, hstat⟩ := h
  have hpw : tid ∈ pendingWonIds bids := by
    unfold pendingWonIds
    refine List.mem_map.mpr ⟨b, ?_, hbid⟩
    refine List.mem_filter.mpr ⟨hb, ?_⟩
    rcases hstat with h1 | h1 <;> simp [h1]
  have hat : tid ∈ attemptedIds bids := List.mem_map.mpr ⟨b, hb, hbid⟩
  have hv2 : ∀ j ∈ selectCandidatesV2 jobs bids, j.id ≠ tid := by
    intro j hj hjid
    unfold selectCandidatesV2 at hj
    rw [List.mem_insertionSort] at hj
    have h2 := (List.mem_filter.mp hj).2
    rw [hjid] at h2
    have h3 : tid ∉ pendingWonIds bids := by
      simpa using h2
    exact h3 hpw
  have hv5 : ∀ j ∈ selectCandidatesV5 jobs bids, j.id ≠ tid := by
    intro j hj hjid
    unfold selectCandidatesV5 at hj
    rw [List.mem_insertionSort] at hj
    have h2 := (List.mem_filter.mp hj).2
    rw [hjid] at h2
    have h3 : tid ∉ attemptedIds bids := by
      simpa using h2
    exact h3 hat
  refine ⟨hv2, hv5, ?_, ?_⟩
  · intro r hr
    have hres : (runCycleV2 (some bids) (.ok jobs) submit minScore
        maxBids).results =
      submitLoop findBestAgentV2 displayNameV2 submit minScore maxBids
        (selectCandidatesV2 jobs bids) 0 := rfl
    rw [hres] at hr
    have hsub := submitLoop_map_sublist findBestAgentV2 displayNameV2 submit
      minScore maxBids (selectCandidatesV2 jobs bids) 0
    have hmem : r.jobId ∈ (selectCandidatesV2 jobs bids).map Job.id :=
      hsub.subset (List.mem_map_of_mem SubmitResult.jobId hr)
    obtain ⟨j, hj, hjeq⟩ := List.mem_map.mp hmem
    intro hcon
    exact hv2 j hj (by rw [hjeq, hcon])
  · intro r hr
    have hres : (runCycleV5 (some bids) (.ok jobs) submit minScore
        maxBids).results =
      submitLoop findBestAgent displayNameV5 submit minScore maxBids
        (selectCandidatesV5 jobs bids) 0 := rfl
    rw [hres] at hr
    have hsub := submitLoop_map_sublist findBestAgent displayNameV5 submit
      minScore maxBids (selectCandidatesV5 jobs bids) 0
    have hmem : r.jobId ∈ (selectCandidatesV5 jobs bids).map Job.id :=
      hsub.subset (List.mem_map_of_mem SubmitResult.jobId hr)
    obtain ⟨j, hj, hjeq⟩ := List.mem_map.mp hmem
    intro hcon
    exact hv5 j hj (by rw [hjeq, hcon])

/-- Claim C1, witness: with a pending record for `t1` in the bid list, the
`t1` job is not among the selected candidates. -/
theorem dedup_excludes_pending_won_witness :
    cJobT1 ∉ selectCandidatesV5 [cJobT1] [cPendingBid] := fun hmem =>
  ((dedup_excludes_pending_won [cJobT1] [cPendingBid] "t1" submitAlwaysOk 5 3
      ⟨cPendingBid, by decide, rfl, Or.inl rfl⟩).2.1 cJobT1 hmem) rfl

/-- Claim C4: the v5 matcher scores each profile as 12 points per distinct
skill keyword occurring in the case-folded combined title+description+tags
text (once per keyword — the score is 12 times the count of matched keywords
of the duplicate-free skill list); the returned agent's score is an upper
bound of all profile scores; and either every profile scores 0 and the PM
(general/research) default is returned with score 0, or the winner is the
first profile in declaration order attaining the strictly highest score. -/
theorem findBestAgent_spec (job : Job) :
    (∀ p ∈ AGENTS, agentScore (jobTextV5 job) p.2 =
      12 * (p.2.countP (fun s => strContains (jobTextV5 job) s) : ℤ)) ∧
    (∀ p ∈ AGENTS, p.2.Nodup) ∧
    (∀ p ∈ AGENTS, agentScore (jobTextV5 job) p.2 ≤ (findBestAgent job).2) ∧
    (((∀ p ∈ AGENTS, agentScore (jobTextV5 job) p.2 = 0) ∧
        findBestAgent job = ("PM", 0)) ∨
      ∃ l₁ p l₂, AGENTS = l₁ ++ p :: l₂ ∧
        findBestAgent job = (p.1, agentScore (jobTextV5 job) p.2) ∧
        0 < agentScore (jobTextV5 job) p.2 ∧
        ∀ q ∈ l₁, agentScore (jobTextV5 job) q.2 <
          agentScore (jobTextV5 job) p.2) := by
  obtain ⟨h1, h2, h3⟩ := bestFold_spec
    (fun p => agentScore (jobTextV5 job) p.2) Prod.fst AGENTS ("PM", 0)
  rw [← findBestAgent_eq_bestFold] at h1 h2 h3
  refine ⟨fun p _ => agentScore_eq _ _, by decide, h2, ?_⟩
  rcases h3 with heq | ⟨l₁, p, l₂, hsplit, heq, hpos, hall⟩
  · left
    refine ⟨?_, heq⟩
    intro p hp
    have hle := h2 p hp
    rw [heq] at hle
    have hnn : 0 ≤ agentScore (jobTextV5 job) p.2 := by
      rw [agentScore_eq]
      exact mul_nonneg (by norm_num) (Int.natCast_nonneg _)
    exact le_antisymm hle hnn
  · right
    exact ⟨l₁, p, l₂, hsplit, heq, hpos, hall⟩

/-- Claim C4, witness: the score-upper-bound conjunct evaluated at the
BACKEND profile on a concrete job. -/
theorem findBestAgent_spec_witness :
    agentScore (jobTextV5 cJobApi)
        ["api", "automation", "backend", "nodejs", "python", "bot", "script",
         "scraping", "data", "server", "database", "webhook"] ≤
      (findBestAgent cJobApi).2 :=
  (findBestAgent_spec cJobApi).2.2.1
    ("BACKEND",
      ["api", "automation", "backend", "nodejs", "python", "bot", "script",
       "scraping", "data", "server", "database", "webhook"]) (by decide)
